import Mathlib

/-!
# Registry signature scanner of `vmdetect` (windows.go)

A shallow embedding of `doesRegistryKeyExist`, `checkRegistry` and
`IsRunningInVirtualMachine`, together with the Go library functions they call
(`path.Split`, `strings.Index`, `strings.HasPrefix`, string slicing), and the
properties of the specification checked against that embedding.

Conventions.
* A Go string is a finite sequence of bytes.  It is modelled by `List Char`,
  one element per byte; every literal of the program is ASCII.
* A Go expression that can raise a run-time panic is modelled by a function
  into `Option`; `none` is the panic.
* The Windows registry is an external collaborator.  It is a parameter
  (`Registry`) that answers the two calls the program makes.
* `PrintError` only writes a diagnostic line; it has no influence on the value
  returned and is left out.
-/

namespace VMDetect

/-- A Go string: its bytes, in order. -/
abbrev GoString := List Char

/-- The slice expression `s[lo:]`: panics unless `0 ≤ lo ≤ len(s)`. -/
def sliceFrom (s : GoString) (lo : Int) : Option GoString :=
  if 0 ≤ lo ∧ lo ≤ (s.length : Int) then some (s.drop lo.toNat) else none

/-- The slice expression `s[:hi]`: panics unless `0 ≤ hi ≤ len(s)`. -/
def sliceTo (s : GoString) (hi : Int) : Option GoString :=
  if 0 ≤ hi ∧ hi ≤ (s.length : Int) then some (s.take hi.toNat) else none

/-- Position of the last byte `c` of `s` counted from `i`, the position of the
head of `s`; `-1` when `c` does not occur. -/
def lastIndexByteFrom (c : Char) : GoString → Int → Int
  | [], _ => -1
  | b :: bs, i =>
    let r := lastIndexByteFrom c bs (i + 1)
    if 0 ≤ r then r else if b = c then i else -1

/-- Go `strings.LastIndexByte`. -/
def lastIndexByte (s : GoString) (c : Char) : Int := lastIndexByteFrom c s 0

/-- Go `path.Split`: splits immediately after the final slash `/`; with no
slash the directory is empty and the file is the whole path. -/
def pathSplit (p : GoString) : GoString × GoString :=
  let i := lastIndexByte p '/'
  (p.take (i + 1).toNat, p.drop (i + 1).toNat)

/-- Go `strings.HasPrefix s prefix`. -/
def stringsHasPrefix (s pre : GoString) : Bool := pre.isPrefixOf s

/-- Position of the first occurrence of `substr` in `s`, counted from `i`, the
position of the head of `s`; `-1` when there is none. -/
def stringsIndexFrom (substr : GoString) : GoString → Int → Int
  | [], i => if substr = [] then i else -1
  | b :: bs, i =>
    if stringsHasPrefix (b :: bs) substr then i else stringsIndexFrom substr bs (i + 1)

/-- Go `strings.Index`. -/
def stringsIndex (s substr : GoString) : Int := stringsIndexFrom substr s 0

/-- The constant `os.PathSeparator` of the Windows build (`// +build windows`). -/
def PathSeparator : Char := '\\'

/-- The predefined registry roots of `golang.org/x/sys/windows/registry` that
the program names. -/
inductive RegistryKey where
  | LOCAL_MACHINE
  | CLASSES_ROOT
  | CURRENT_USER
  | USERS
  | CURRENT_CONFIG
  deriving DecidableEq, Repr

/-- The host registry as the program observes it.
`OpenKey k p` tells whether `registry.OpenKey(k, p, registry.QUERY_VALUE)`
returns a handle (`err == nil`); `ReadSubKeyNames k p` is the result of
`ReadSubKeyNames(0xFFFF)` on that handle, `none` when it returns an error.
The library call returns the names without error only when it could collect
the 0xFFFF names asked for; on a key with fewer sub-keys it returns the names
together with `io.EOF`, which the program treats like any other error. -/
structure Registry where
  OpenKey : RegistryKey → GoString → Bool
  ReadSubKeyNames : RegistryKey → GoString → Option (List GoString)

/-- The `switch keyTypeStr` of `doesRegistryKeyExist`; `none` is its `default`
branch. -/
def keyTypeOf (keyTypeStr : GoString) : Option RegistryKey :=
  if keyTypeStr = "HKLM".toList then some RegistryKey.LOCAL_MACHINE
  else if keyTypeStr = "HKCR".toList then some RegistryKey.CLASSES_ROOT
  else if keyTypeStr = "HKCU".toList then some RegistryKey.CURRENT_USER
  else if keyTypeStr = "HKU".toList then some RegistryKey.USERS
  else if keyTypeStr = "HKCC".toList then some RegistryKey.CURRENT_CONFIG
  else none

/-- The three values `doesRegistryKeyExist` derives from its argument before it
touches the registry. -/
structure ParsedKey where
  keyTypeStr : GoString
  keyPath : GoString
  subkeyPrefix : GoString
  deriving DecidableEq, Repr

/-- Lines 15-25 of `doesRegistryKeyExist`: the wildcard handling and the split
at the first path separator.  `none` is a slice-bounds panic. -/
def parseKey (key : GoString) : Option ParsedKey :=
  match sliceFrom key ((key.length : Int) - 1) with
  | none => none
  | some lastByte =>
    let split : Option (GoString × GoString) :=
      if lastByte = "*".toList then
        match sliceTo (pathSplit key).2 (((pathSplit key).2.length : Int) - 1) with
        | none => none
        | some subkeyPrefix => some ((pathSplit key).1, subkeyPrefix)
      else some (key, [])
    match split with
    | none => none
    | some (key, subkeyPrefix) =>
      let firstSeparatorIndex := stringsIndex key [PathSeparator]
      match sliceTo key firstSeparatorIndex with
      | none => none
      | some keyTypeStr =>
        match sliceFrom key (firstSeparatorIndex + 1) with
        | none => none
        | some keyPath => some ⟨keyTypeStr, keyPath, subkeyPrefix⟩

/-- Lines 27-78 of `doesRegistryKeyExist`: root selection, open, and the
optional enumeration of sub-key names. -/
def lookupParsed (reg : Registry) (p : ParsedKey) : Bool :=
  match keyTypeOf p.keyTypeStr with
  | none => false
  | some keyType =>
    if reg.OpenKey keyType p.keyPath = false then false
    else if p.subkeyPrefix ≠ [] then
      match reg.ReadSubKeyNames keyType p.keyPath with
      | none => false
      | some subKeys => subKeys.any (fun subKeyName => stringsHasPrefix subKeyName p.subkeyPrefix)
    else true

/-- The function `doesRegistryKeyExist`; `none` is a run-time panic. -/
def doesRegistryKeyExist (reg : Registry) (key : GoString) : Option Bool :=
  (parseKey key).map (lookupParsed reg)

def hyperVKeys : List GoString := [
  "HKLM\\SOFTWARE\\Microsoft\\Hyper-V".toList,
  "HKLM\\SOFTWARE\\Microsoft\\VirtualMachine".toList,
  "HKLM\\SOFTWARE\\Microsoft\\Virtual Machine\\Guest\\Parameters".toList,
  "HKLM\\SYSTEM\\ControlSet001\\Services\\vmicheartbeat".toList,
  "HKLM\\SYSTEM\\ControlSet001\\Services\\vmicvss".toList,
  "HKLM\\SYSTEM\\ControlSet001\\Services\\vmicshutdown".toList,
  "HKLM\\SYSTEM\\ControlSet001\\Services\\vmicexchange".toList]

def parallelsKeys : List GoString := [
  "HKLM\\SYSTEM\\CurrentControlSet\\Enum\\PCI\\VEN_1AB8*".toList]

def virtualBoxKeys : List GoString := [
  "HKLM\\SYSTEM\\CurrentControlSet\\Enum\\PCI\\VEN_80EE*".toList,
  "HKLM\\HARDWARE\\ACPI\\DSDT\\VBOX__".toList,
  "HKLM\\HARDWARE\\ACPI\\FADT\\VBOX__".toList,
  "HKLM\\HARDWARE\\ACPI\\RSDT\\VBOX__".toList,
  "HKLM\\SOFTWARE\\Oracle\\VirtualBox Guest Additions".toList,
  "HKLM\\SYSTEM\\ControlSet001\\Services\\VBoxGuest".toList,
  "HKLM\\SYSTEM\\ControlSet001\\Services\\VBoxMouse".toList,
  "HKLM\\SYSTEM\\ControlSet001\\Services\\VBoxService".toList,
  "HKLM\\SYSTEM\\ControlSet001\\Services\\VBoxSF".toList,
  "HKLM\\SYSTEM\\ControlSet001\\Services\\VBoxVideo".toList]

def virtualPCKeys : List GoString := [
  "HKLM\\SYSTEM\\CurrentControlSet\\Enum\\PCI\\VEN_5333*".toList,
  "HKLM\\SYSTEM\\ControlSet001\\Services\\vpcbus".toList,
  "HKLM\\SYSTEM\\ControlSet001\\Services\\vpc-s3".toList,
  "HKLM\\SYSTEM\\ControlSet001\\Services\\vpcuhub".toList,
  "HKLM\\SYSTEM\\ControlSet001\\Services\\msvmmouf".toList]

def vmwareKeys : List GoString := [
  "HKLM\\SYSTEM\\CurrentControlSet\\Enum\\PCI\\VEN_15AD*".toList,
  "HKCU\\SOFTWARE\\VMware, Inc.\\VMware Tools".toList,
  "HKLM\\SOFTWARE\\VMware, Inc.\\VMware Tools".toList,
  "HKLM\\SYSTEM\\ControlSet001\\Services\\vmdebug".toList,
  "HKLM\\SYSTEM\\ControlSet001\\Services\\vmmouse".toList,
  "HKLM\\SYSTEM\\ControlSet001\\Services\\VMTools".toList,
  "HKLM\\SYSTEM\\ControlSet001\\Services\\VMMEMCTL".toList,
  "HKLM\\SYSTEM\\ControlSet001\\Services\\vmware".toList,
  "HKLM\\SYSTEM\\ControlSet001\\Services\\vmci".toList,
  "HKLM\\SYSTEM\\ControlSet001\\Services\\vmx86".toList,
  "HKLM\\SYSTEM\\CurrentControlSet\\Enum\\IDE\\CdRomNECVMWar_VMware_IDE_CD*".toList,
  "HKLM\\SYSTEM\\CurrentControlSet\\Enum\\IDE\\CdRomNECVMWar_VMware_SATA_CD*".toList,
  "HKLM\\SYSTEM\\CurrentControlSet\\Enum\\IDE\\DiskVMware_Virtual_IDE_Hard_Drive*".toList,
  "HKLM\\SYSTEM\\CurrentControlSet\\Enum\\IDE\\DiskVMware_Virtual_SATA_Hard_Drive*".toList]

def xenKeys : List GoString := [
  "HKLM\\HARDWARE\\ACPI\\DSDT\\xen".toList,
  "HKLM\\HARDWARE\\ACPI\\FADT\\xen".toList,
  "HKLM\\HARDWARE\\ACPI\\RSDT\\xen".toList,
  "HKLM\\SYSTEM\\ControlSet001\\Services\\xenevtchn".toList,
  "HKLM\\SYSTEM\\ControlSet001\\Services\\xennet".toList,
  "HKLM\\SYSTEM\\ControlSet001\\Services\\xennet6".toList,
  "HKLM\\SYSTEM\\ControlSet001\\Services\\xensvc".toList,
  "HKLM\\SYSTEM\\ControlSet001\\Services\\xenvdb".toList]

/-- The catalog `allKeys` of `checkRegistry`, groups in declared order. -/
def allKeys : List (List GoString) :=
  [hyperVKeys, parallelsKeys, virtualBoxKeys, virtualPCKeys, vmwareKeys, xenKeys]

/-- The inner loop `for _, key := range keys` of `checkRegistry`:
`some (some key)` is the early `return true, key`, `some none` is falling out
of the loop, `none` is a panic raised by `doesRegistryKeyExist`. -/
def scanKeys (reg : Registry) : List GoString → Option (Option GoString)
  | [] => some none
  | key :: rest =>
    match doesRegistryKeyExist reg key with
    | none => none
    | some true => some (some key)
    | some false => scanKeys reg rest

/-- The outer loop `for _, keys := range allKeys` of `checkRegistry`. -/
def scanGroups (reg : Registry) : List (List GoString) → Option (Option GoString)
  | [] => some none
  | keys :: rest =>
    match scanKeys reg keys with
    | none => none
    | some (some key) => some (some key)
    | some none => scanGroups reg rest

/-- The body of `checkRegistry` over an arbitrary catalog. -/
def checkRegistryOver (reg : Registry) (catalog : List (List GoString)) :
    Option (Bool × GoString) :=
  match scanGroups reg catalog with
  | none => none
  | some (some key) => some (true, key)
  | some none => some (false, "none".toList)

/-- The function `checkRegistry`: the scan of the built-in catalog. -/
def checkRegistry (reg : Registry) : Option (Bool × GoString) :=
  checkRegistryOver reg allKeys

/-- The call `fmt.Sprintf("Registry key (%v)", registryKey)`. -/
def sprintfRegistryKey (registryKey : GoString) : GoString :=
  "Registry key (".toList ++ registryKey ++ ")".toList

/-- The function `IsRunningInVirtualMachine`; `none` is a run-time panic. -/
def IsRunningInVirtualMachine (reg : Registry) : Option (Bool × GoString) :=
  match checkRegistry reg with
  | none => none
  | some (vmDetected, registryKey) =>
    if vmDetected then some (vmDetected, sprintfRegistryKey registryKey)
    else some (false, "nothing".toList)

/-- A registry in which no key can be opened. -/
def emptyRegistry : Registry where
  OpenKey := fun _ _ => false
  ReadSubKeyNames := fun _ _ => none

/-- A registry whose only key is `HKLM\SOFTWARE\Microsoft\Hyper-V`.  The key has
no sub-key, so an enumeration of 0xFFFF names reports `io.EOF`. -/
def hyperVRegistry : Registry where
  OpenKey := fun k p =>
    decide (k = RegistryKey.LOCAL_MACHINE ∧ p = "SOFTWARE\\Microsoft\\Hyper-V".toList)
  ReadSubKeyNames := fun _ _ => none

/-- A registry in which every key opens and no key has a sub-key, so every
enumeration of 0xFFFF names reports `io.EOF`. -/
def childlessRegistry : Registry where
  OpenKey := fun _ _ => true
  ReadSubKeyNames := fun _ _ => none

/-- The sub-key names `DEV_i`, `DEV_(i+1)`, ..., `n` of them. -/
def deviceNames : Nat → Nat → List GoString
  | 0, _ => []
  | n + 1, i => ("DEV_".toList ++ Nat.toDigits 10 i) :: deviceNames n (i + 1)

/-- The sub-keys of the crowded PCI key below: `VEN_1AB8&DEV_0001` followed by
65534 other names, 0xFFFF in all. -/
def crowdedPciNames : List GoString :=
  "VEN_1AB8&DEV_0001".toList :: deviceNames 65534 0

/-- A registry whose only key is `HKLM\SYSTEM\CurrentControlSet\Enum\PCI`, holding
the 0xFFFF sub-keys `crowdedPciNames`: the open succeeds, and the enumeration
of 0xFFFF names returns them all without error. -/
def crowdedPciRegistry : Registry where
  OpenKey := fun k p =>
    decide (k = RegistryKey.LOCAL_MACHINE ∧
      p = "SYSTEM\\CurrentControlSet\\Enum\\PCI".toList)
  ReadSubKeyNames := fun k p =>
    if k = RegistryKey.LOCAL_MACHINE ∧ p = "SYSTEM\\CurrentControlSet\\Enum\\PCI".toList then
      some crowdedPciNames
    else none

set_option maxRecDepth 100000

/-! ## Slicing and searching -/

theorem sliceTo_append (a b : GoString) :
    sliceTo (a ++ b) (a.length : Int) = some a := by
  have h : (0 : Int) ≤ (a.length : Int) ∧ (a.length : Int) ≤ ((a ++ b).length : Int) := by
    constructor
    · omega
    · rw [List.length_append]; omega
  unfold sliceTo
  rw [if_pos h, Int.toNat_ofNat, List.take_left]

theorem sliceFrom_append (a b : GoString) :
    sliceFrom (a ++ b) (a.length : Int) = some b := by
  have h : (0 : Int) ≤ (a.length : Int) ∧ (a.length : Int) ≤ ((a ++ b).length : Int) := by
    constructor
    · omega
    · rw [List.length_append]; omega
  unfold sliceFrom
  rw [if_pos h, Int.toNat_ofNat, List.drop_left]

theorem length_concat_sub_one (s : GoString) (c : Char) :
    (((s ++ [c]).length : Int) - 1) = (s.length : Int) := by
  rw [List.length_append, List.length_singleton]; omega

theorem sliceFrom_last (s : GoString) (c : Char) :
    sliceFrom (s ++ [c]) (((s ++ [c]).length : Int) - 1) = some [c] := by
  rw [length_concat_sub_one, sliceFrom_append]

theorem sliceTo_dropLast (s : GoString) (c : Char) :
    sliceTo (s ++ [c]) (((s ++ [c]).length : Int) - 1) = some s := by
  rw [length_concat_sub_one, sliceTo_append]

/-- Slicing `tok ++ sep :: rest` just after the separator. -/
theorem sliceFrom_after (tok rest : GoString) (sep : Char) :
    sliceFrom (tok ++ sep :: rest) ((tok.length : Int) + 1) = some rest := by
  have e : ((tok.length : Int) + 1) = ((tok ++ [sep]).length : Int) := by
    rw [List.length_append, List.length_singleton]; omega
  have e1 : tok ++ sep :: rest = (tok ++ [sep]) ++ rest := by simp
  rw [e, e1, sliceFrom_append]

theorem stringsIndexFrom_not_mem (c : Char) (s : GoString) (i : Int) (h : c ∉ s) :
    stringsIndexFrom [c] s i = -1 := by
  induction s generalizing i with
  | nil => simp [stringsIndexFrom]
  | cons b bs ih =>
    simp only [List.mem_cons, not_or] at h
    simp [stringsIndexFrom, stringsHasPrefix, List.isPrefixOf, h.1, ih (i + 1) h.2]

theorem stringsIndexFrom_first (c : Char) (tok rest : GoString) (i : Int) (h : c ∉ tok) :
    stringsIndexFrom [c] (tok ++ c :: rest) i = i + (tok.length : Int) := by
  induction tok generalizing i with
  | nil => simp [stringsIndexFrom, stringsHasPrefix, List.isPrefixOf]
  | cons b bs ih =>
    simp only [List.mem_cons, not_or] at h
    simp [stringsIndexFrom, stringsHasPrefix, List.isPrefixOf, h.1, ih (i + 1) h.2]
    omega

theorem lastIndexByteFrom_not_mem (c : Char) (s : GoString) (i : Int) (h : c ∉ s) :
    lastIndexByteFrom c s i = -1 := by
  induction s generalizing i with
  | nil => simp [lastIndexByteFrom]
  | cons b bs ih =>
    simp only [List.mem_cons, not_or] at h
    have hb : ¬ b = c := fun e => h.1 e.symm
    simp [lastIndexByteFrom, ih (i + 1) h.2, hb]

theorem lastIndexByteFrom_last (c : Char) (a f : GoString) (i : Int) (hi : 0 ≤ i)
    (h : c ∉ f) : lastIndexByteFrom c (a ++ c :: f) i = i + (a.length : Int) := by
  induction a generalizing i with
  | nil => simp [lastIndexByteFrom, lastIndexByteFrom_not_mem c f (i + 1) h]
  | cons b bs ih =>
    have hr := ih (i + 1) (by omega)
    have h0 : (0 : Int) ≤ i + 1 + (bs.length : Int) := by omega
    simp only [List.cons_append, lastIndexByteFrom, List.append_eq, hr, List.length_cons,
      if_pos h0]
    push_cast
    omega

theorem pathSplit_no_slash (p : GoString) (h : '/' ∉ p) : pathSplit p = ([], p) := by
  simp [pathSplit, lastIndexByte, lastIndexByteFrom_not_mem '/' p 0 h]

theorem pathSplit_last_slash (a f : GoString) (h : '/' ∉ f) :
    pathSplit (a ++ '/' :: f) = (a ++ ['/'], f) := by
  have hl := lastIndexByteFrom_last '/' a f 0 (le_refl 0) h
  have e : ((0 : Int) + (a.length : Int) + 1).toNat = a.length + 1 := by omega
  simp only [pathSplit, lastIndexByte, hl, e]
  have e1 : a ++ '/' :: f = (a ++ ['/']) ++ f := by simp
  have e2 : a.length + 1 = (a ++ ['/']).length := by simp
  rw [e1, e2, List.take_left, List.drop_left]

/-! ## The parse performed by `doesRegistryKeyExist` -/

theorem parseKey_nil : parseKey [] = none := by decide

/-- A signature whose last byte is not `*` is split at its first path
separator and records no name prefix. -/
theorem parseKey_plain (tok sub : GoString) (htok : PathSeparator ∉ tok)
    (hstar : (tok ++ PathSeparator :: sub).getLast? ≠ some '*') :
    parseKey (tok ++ PathSeparator :: sub) = some ⟨tok, sub, []⟩ := by
  obtain ⟨c, hc⟩ : ∃ c, (tok ++ PathSeparator :: sub).getLast? = some c := by
    cases hg : (tok ++ PathSeparator :: sub).getLast? with
    | none => simp at hg
    | some c => exact ⟨c, rfl⟩
  obtain ⟨ys, hys⟩ := List.getLast?_eq_some_iff.mp hc
  have hne : ¬ ([c] : GoString) = "*".toList := by
    intro e
    have e2 : ([c] : GoString) = ['*'] := e
    apply hstar
    rw [hc, List.singleton_inj.mp e2]
  have hlast : sliceFrom (tok ++ PathSeparator :: sub)
      (((tok ++ PathSeparator :: sub).length : Int) - 1) = some [c] := by
    rw [hys]; exact sliceFrom_last ys c
  have hidx : stringsIndex (tok ++ PathSeparator :: sub) [PathSeparator] = (tok.length : Int) := by
    unfold stringsIndex
    rw [stringsIndexFrom_first PathSeparator tok sub 0 htok, zero_add]
  unfold parseKey
  rw [hlast]
  dsimp only
  rw [if_neg hne]
  dsimp only
  rw [hidx, sliceTo_append, sliceFrom_after]

/-- A signature that ends in `*` and holds no forward slash makes the parse
panic: `path.Split` finds no slash, the key becomes empty, and the slice
`key[:firstSeparatorIndex]` is taken at `-1`. -/
theorem parseKey_star_no_slash (body : GoString) (h : '/' ∉ body) :
    parseKey (body ++ ['*']) = none := by
  have hmem : '/' ∉ body ++ ['*'] := by
    simp only [List.mem_append, List.mem_singleton, not_or]
    exact ⟨h, by decide⟩
  have hstarlit : (['*'] : GoString) = "*".toList := rfl
  have hidx : stringsIndex [] [PathSeparator] = -1 := by decide
  have hs : sliceTo ([] : GoString) (-1) = none := by decide
  unfold parseKey
  rw [sliceFrom_last]
  dsimp only
  rw [if_pos hstarlit, pathSplit_no_slash _ hmem]
  dsimp only
  rw [sliceTo_dropLast]
  dsimp only
  rw [hidx, hs]

/-- A signature `tok\mid/file*` parses to root token `tok`, sub-path `mid/` and
name prefix `file`: the segment split off is the one after the last forward
slash. -/
theorem parseKey_star_slash (tok mid file : GoString) (htok : PathSeparator ∉ tok)
    (hfile : '/' ∉ file) :
    parseKey (tok ++ PathSeparator :: (mid ++ '/' :: (file ++ ['*']))) =
      some ⟨tok, mid ++ ['/'], file⟩ := by
  have hmem : '/' ∉ file ++ ['*'] := by
    simp only [List.mem_append, List.mem_singleton, not_or]
    exact ⟨hfile, by decide⟩
  have e0 : tok ++ PathSeparator :: (mid ++ '/' :: (file ++ ['*'])) =
      (tok ++ PathSeparator :: (mid ++ '/' :: file)) ++ ['*'] := by simp
  have e1 : tok ++ PathSeparator :: (mid ++ '/' :: (file ++ ['*'])) =
      (tok ++ PathSeparator :: mid) ++ '/' :: (file ++ ['*']) := by simp
  have e2 : (tok ++ PathSeparator :: mid) ++ ['/'] = tok ++ PathSeparator :: (mid ++ ['/']) := by
    simp
  have hlast := sliceFrom_last (tok ++ PathSeparator :: (mid ++ '/' :: file)) '*'
  rw [← e0] at hlast
  have hsplit := pathSplit_last_slash (tok ++ PathSeparator :: mid) (file ++ ['*']) hmem
  rw [← e1, e2] at hsplit
  have hstarlit : (['*'] : GoString) = "*".toList := rfl
  have hidx : stringsIndex (tok ++ PathSeparator :: (mid ++ ['/'])) [PathSeparator]
      = (tok.length : Int) := by
    unfold stringsIndex
    rw [stringsIndexFrom_first PathSeparator tok (mid ++ ['/']) 0 htok, zero_add]
  unfold parseKey
  rw [hlast]
  dsimp only
  rw [if_pos hstarlit, hsplit]
  dsimp only
  rw [sliceTo_dropLast]
  dsimp only
  rw [hidx, sliceTo_append, sliceFrom_after]

/-! ## The scan loops -/

theorem doesRegistryKeyExist_of_parse (reg : Registry) (key : GoString) (p : ParsedKey)
    (h : parseKey key = some p) :
    doesRegistryKeyExist reg key = some (lookupParsed reg p) := by
  unfold doesRegistryKeyExist
  rw [h]
  rfl

theorem doesRegistryKeyExist_of_panic (reg : Registry) (key : GoString)
    (h : parseKey key = none) : doesRegistryKeyExist reg key = none := by
  unfold doesRegistryKeyExist
  rw [h]
  rfl

theorem scanKeys_append (reg : Registry) (a b : List GoString) :
    scanKeys reg (a ++ b) =
      match scanKeys reg a with
      | none => none
      | some (some key) => some (some key)
      | some none => scanKeys reg b := by
  induction a with
  | nil => rfl
  | cons k a ih =>
    simp only [List.cons_append, scanKeys]
    cases hd : doesRegistryKeyExist reg k with
    | none => rfl
    | some v =>
      cases v with
      | true => rfl
      | false => exact ih

theorem scanGroups_eq_scanKeys (reg : Registry) (catalog : List (List GoString)) :
    scanGroups reg catalog = scanKeys reg catalog.flatten := by
  induction catalog with
  | nil => rfl
  | cons g gs ih =>
    rw [List.flatten_cons, scanKeys_append, scanGroups, ih]

/-- The scan stops at `k` exactly when `k` is the first signature found and
every signature before it was reported absent. -/
theorem scanKeys_found_iff (reg : Registry) (l : List GoString) (k : GoString) :
    scanKeys reg l = some (some k) ↔
      ∃ pre post, l = pre ++ k :: post ∧
        (∀ x ∈ pre, doesRegistryKeyExist reg x = some false) ∧
        doesRegistryKeyExist reg k = some true := by
  induction l with
  | nil => simp [scanKeys]
  | cons a l ih =>
    constructor
    · intro h
      simp only [scanKeys] at h
      cases hd : doesRegistryKeyExist reg a with
      | none => rw [hd] at h; simp at h
      | some v =>
        rw [hd] at h
        cases v with
        | true =>
          simp only [Option.some.injEq] at h
          subst h
          exact ⟨[], l, rfl, by simp, hd⟩
        | false =>
          obtain ⟨pre, post, e, hp, hk⟩ := ih.mp h
          refine ⟨a :: pre, post, by simp [e], ?_, hk⟩
          intro x hx
          rcases List.mem_cons.mp hx with rfl | hx
          · exact hd
          · exact hp x hx
    · rintro ⟨pre, post, e, hp, hk⟩
      cases pre with
      | nil =>
        simp only [List.nil_append, List.cons.injEq] at e
        obtain ⟨rfl, rfl⟩ := e
        simp only [scanKeys, hk]
      | cons b pre =>
        simp only [List.cons_append, List.cons.injEq] at e
        obtain ⟨rfl, rfl⟩ := e
        have hb := hp a (List.mem_cons_self _ _)
        simp only [scanKeys, hb]
        exact ih.mpr ⟨pre, post, rfl, fun x hx => hp x (List.mem_cons_of_mem _ hx), hk⟩

/-- The scan falls out of the loop exactly when every signature was reported
absent. -/
theorem scanKeys_exhausted_iff (reg : Registry) (l : List GoString) :
    scanKeys reg l = some none ↔ ∀ x ∈ l, doesRegistryKeyExist reg x = some false := by
  induction l with
  | nil => simp [scanKeys]
  | cons a l ih =>
    simp only [scanKeys, List.mem_cons, forall_eq_or_imp]
    cases hd : doesRegistryKeyExist reg a with
    | none => simp
    | some v =>
      cases v with
      | true => simp
      | false => simpa using ih

theorem checkRegistryOver_found_iff (reg : Registry) (catalog : List (List GoString))
    (k : GoString) :
    checkRegistryOver reg catalog = some (true, k) ↔
      scanKeys reg catalog.flatten = some (some k) := by
  unfold checkRegistryOver
  rw [scanGroups_eq_scanKeys]
  cases h : scanKeys reg catalog.flatten with
  | none => simp
  | some r =>
    cases r with
    | none => simp
    | some k2 => simp

theorem checkRegistryOver_panic_iff (reg : Registry) (catalog : List (List GoString)) :
    checkRegistryOver reg catalog = none ↔ scanKeys reg catalog.flatten = none := by
  unfold checkRegistryOver
  rw [scanGroups_eq_scanKeys]
  cases h : scanKeys reg catalog.flatten with
  | none => simp
  | some r =>
    cases r with
    | none => simp
    | some k2 => simp

theorem checkRegistryOver_absent_iff (reg : Registry) (catalog : List (List GoString))
    (s : GoString) :
    checkRegistryOver reg catalog = some (false, s) ↔
      scanKeys reg catalog.flatten = some none ∧ s = "none".toList := by
  unfold checkRegistryOver
  rw [scanGroups_eq_scanKeys]
  cases h : scanKeys reg catalog.flatten with
  | none => simp
  | some r =>
    cases r with
    | none => simp [eq_comm]
    | some k2 => simp

theorem IsRunningInVirtualMachine_found_iff (reg : Registry) (s : GoString) :
    IsRunningInVirtualMachine reg = some (true, s) ↔
      ∃ k, checkRegistry reg = some (true, k) ∧ s = sprintfRegistryKey k := by
  unfold IsRunningInVirtualMachine
  cases h : checkRegistry reg with
  | none => simp
  | some r =>
    obtain ⟨b, k⟩ := r
    cases b with
    | true => simp [eq_comm]
    | false => simp

theorem IsRunningInVirtualMachine_panic_iff (reg : Registry) :
    IsRunningInVirtualMachine reg = none ↔ checkRegistry reg = none := by
  unfold IsRunningInVirtualMachine
  cases h : checkRegistry reg with
  | none => simp
  | some r =>
    obtain ⟨b, k⟩ := r
    cases b with
    | true => simp
    | false => simp

theorem IsRunningInVirtualMachine_absent_iff (reg : Registry) (s : GoString) :
    IsRunningInVirtualMachine reg = some (false, s) ↔
      (∃ k, checkRegistry reg = some (false, k)) ∧ s = "nothing".toList := by
  unfold IsRunningInVirtualMachine
  cases h : checkRegistry reg with
  | none => simp
  | some r =>
    obtain ⟨b, k⟩ := r
    cases b with
    | true => simp
    | false => simp [eq_comm]

/-- The first wildcard signature of the catalog panics on every registry. -/
theorem doesRegistryKeyExist_parallels (reg : Registry) :
    doesRegistryKeyExist reg "HKLM\\SYSTEM\\CurrentControlSet\\Enum\\PCI\\VEN_1AB8*".toList
      = none :=
  doesRegistryKeyExist_of_panic reg _ (by decide)

theorem parallels_mem_catalog :
    "HKLM\\SYSTEM\\CurrentControlSet\\Enum\\PCI\\VEN_1AB8*".toList ∈ allKeys.flatten := by
  decide

theorem allKeys_flatten_eq :
    allKeys.flatten = hyperVKeys ++
      ("HKLM\\SYSTEM\\CurrentControlSet\\Enum\\PCI\\VEN_1AB8*".toList ::
        (virtualBoxKeys ++ virtualPCKeys ++ vmwareKeys ++ xenKeys)) := by
  simp [allKeys, parallelsKeys]

/-- The name prefix recorded for a signature that ends in `*` is the segment
`path.Split` splits off, with the final `*` removed. -/
theorem parseKey_star_recorded (key : GoString) (p : ParsedKey)
    (hstar : key.getLast? = some '*') (hparse : parseKey key = some p) :
    (pathSplit key).2 = p.subkeyPrefix ++ ['*'] := by
  obtain ⟨ys, hys⟩ := List.getLast?_eq_some_iff.mp hstar
  have hlast : sliceFrom key ((key.length : Int) - 1) = some ['*'] := by
    rw [hys]; exact sliceFrom_last ys '*'
  have hstarlit : (['*'] : GoString) = "*".toList := rfl
  unfold parseKey at hparse
  rw [hlast] at hparse
  dsimp only at hparse
  rw [if_pos hstarlit] at hparse
  cases hs : sliceTo (pathSplit key).2 (((pathSplit key).2.length : Int) - 1) with
  | none => rw [hs] at hparse; simp at hparse
  | some pre =>
    rw [hs] at hparse
    dsimp only at hparse
    have hp : p.subkeyPrefix = pre := by
      cases h1 : sliceTo (pathSplit key).1 (stringsIndex (pathSplit key).1 [PathSeparator]) with
      | none => rw [h1] at hparse; simp at hparse
      | some t =>
        rw [h1] at hparse
        dsimp only at hparse
        cases h2 : sliceFrom (pathSplit key).1
            (stringsIndex (pathSplit key).1 [PathSeparator] + 1) with
        | none => rw [h2] at hparse; simp at hparse
        | some q =>
          rw [h2] at hparse
          simp only [Option.some.injEq] at hparse
          rw [← hparse]
    rw [hp]
    unfold sliceTo at hs
    split at hs
    · rename_i hb
      simp only [Option.some.injEq] at hs
      have hlen : 1 ≤ (pathSplit key).2.length := by omega
      have hne : (pathSplit key).2 ≠ [] := by
        intro e; rw [e] at hlen; simp at hlen
      have hfl : (pathSplit key).2.getLast? = some '*' := by
        have hd : (pathSplit key).2 = key.drop (lastIndexByte key '/' + 1).toNat := rfl
        rw [hd] at hne ⊢
        rw [List.getLast?_drop]
        split
        · rename_i hle
          exact absurd (List.drop_eq_nil_iff.mpr hle) hne
        · exact hstar
      have hcat := List.dropLast_append_getLast? '*' hfl
      rw [List.dropLast_eq_take] at hcat
      have ht : (((pathSplit key).2.length : Int) - 1).toNat = (pathSplit key).2.length - 1 := by
        omega
      rw [ht] at hs
      rw [← hs, hcat]
    · simp at hs

/-- On the first wildcard signature of the catalog `path.Split` leaves an empty
key, `strings.Index` answers `-1`, and the slice `key[:firstSeparatorIndex]` is
out of bounds. -/
theorem parallels_slice_out_of_bounds :
    pathSplit "HKLM\\SYSTEM\\CurrentControlSet\\Enum\\PCI\\VEN_1AB8*".toList
      = ([], "HKLM\\SYSTEM\\CurrentControlSet\\Enum\\PCI\\VEN_1AB8*".toList) ∧
    stringsIndex [] [PathSeparator] = -1 ∧
    sliceTo ([] : GoString) (-1) = none := by
  decide

/-- Every signature of the catalog that ends in `*` makes the parse panic, and
every other signature of the catalog parses. -/
theorem catalog_parse_outcomes :
    (∀ k ∈ allKeys.flatten, k.getLast? = some '*' → parseKey k = none) ∧
    (∀ k ∈ allKeys.flatten, k.getLast? ≠ some '*' → (parseKey k).isSome = true) ∧
    (allKeys.flatten.filter (fun k => k.getLast? = some '*')).length = 8 := by
  decide

/-! ## The claims -/

/-- C1 (the code departs from it).  The claim: on a registry in which no
signature matches, `IsRunningInVirtualMachine` returns `(false, "nothing")`.
The code: on the registry in which no key exists it panics, and on no registry
at all does it return `(false, "nothing")`. -/
theorem IsRunningInVirtualMachine_never_nothing :
    IsRunningInVirtualMachine emptyRegistry = none ∧
    ∀ reg : Registry, ¬ IsRunningInVirtualMachine reg = some (false, "nothing".toList) := by
  refine ⟨by decide, ?_⟩
  intro reg h
  obtain ⟨⟨k, hk⟩, -⟩ := (IsRunningInVirtualMachine_absent_iff reg _).mp h
  have hscan := ((checkRegistryOver_absent_iff reg allKeys k).mp hk).1
  have hall := (scanKeys_exhausted_iff reg allKeys.flatten).mp hscan
  have hp := hall _ parallels_mem_catalog
  rw [doesRegistryKeyExist_parallels] at hp
  exact Option.noConfusion hp

/-- C2 (the code departs from it).  The claim: `IsRunningInVirtualMachine`
cannot panic.  The code: on every registry on which the seven Hyper-V
signatures are reported absent, the scan reaches the Parallels signature
`HKLM\SYSTEM\CurrentControlSet\Enum\PCI\VEN_1AB8*`, the slice
`key[:firstSeparatorIndex]` is out of bounds, and the entry point panics. -/
theorem IsRunningInVirtualMachine_panics (reg : Registry)
    (h : ∀ k ∈ hyperVKeys, doesRegistryKeyExist reg k = some false) :
    IsRunningInVirtualMachine reg = none := by
  rw [IsRunningInVirtualMachine_panic_iff]
  unfold checkRegistry
  rw [checkRegistryOver_panic_iff, allKeys_flatten_eq, scanKeys_append,
    (scanKeys_exhausted_iff reg hyperVKeys).mpr h]
  simp only [scanKeys, doesRegistryKeyExist_parallels]

theorem IsRunningInVirtualMachine_panics_witness :
    (∀ k ∈ hyperVKeys, doesRegistryKeyExist emptyRegistry k = some false) ∧
    IsRunningInVirtualMachine emptyRegistry = none :=
  ⟨by decide, IsRunningInVirtualMachine_panics emptyRegistry (by decide)⟩

/-- C3, against the claim as written: with `HKLM\SOFTWARE\Microsoft\Hyper-V` the
matching signature, the reason returned is not that signature but
`Registry key (HKLM\SOFTWARE\Microsoft\Hyper-V)`. -/
theorem IsRunningInVirtualMachine_reason_not_literal :
    doesRegistryKeyExist hyperVRegistry "HKLM\\SOFTWARE\\Microsoft\\Hyper-V".toList = some true ∧
    IsRunningInVirtualMachine hyperVRegistry =
      some (true, "Registry key (HKLM\\SOFTWARE\\Microsoft\\Hyper-V)".toList) ∧
    "Registry key (HKLM\\SOFTWARE\\Microsoft\\Hyper-V)".toList ≠
      "HKLM\\SOFTWARE\\Microsoft\\Hyper-V".toList := by
  decide

/-- C3 (amended).  `IsRunningInVirtualMachine` returns `(true, s)` exactly when
some catalog signature `k` is reported found with every signature before it
reported absent, and then `s` is the text `Registry key (`, the literal
signature `k`, and `)`. -/
theorem IsRunningInVirtualMachine_true_iff (reg : Registry) (s : GoString) :
    IsRunningInVirtualMachine reg = some (true, s) ↔
      ∃ pre k post, allKeys.flatten = pre ++ k :: post ∧
        (∀ x ∈ pre, doesRegistryKeyExist reg x = some false) ∧
        doesRegistryKeyExist reg k = some true ∧
        s = "Registry key (".toList ++ k ++ ")".toList := by
  rw [IsRunningInVirtualMachine_found_iff]
  unfold checkRegistry
  constructor
  · rintro ⟨k, hk, rfl⟩
    obtain ⟨pre, post, e, hp, hf⟩ :=
      (scanKeys_found_iff reg _ k).mp ((checkRegistryOver_found_iff reg allKeys k).mp hk)
    exact ⟨pre, k, post, e, hp, hf, rfl⟩
  · rintro ⟨pre, k, post, e, hp, hf, rfl⟩
    exact ⟨k, (checkRegistryOver_found_iff reg allKeys k).mpr
      ((scanKeys_found_iff reg _ k).mpr ⟨pre, post, e, hp, hf⟩), rfl⟩

/-- C4.  If `checkRegistry` returns `(true, k)` then `k` is a catalog signature
reported found, every signature before it in the flattened order Hyper-V,
Parallels, VirtualBox, Virtual PC, VMware, Xen was reported absent, and nothing
after `k` is looked at: any catalog whose flattening starts with the same
signatures up to `k` gives the same answer, whatever follows. -/
theorem checkRegistry_first_match (reg : Registry) (k : GoString)
    (h : checkRegistry reg = some (true, k)) :
    ∃ pre post,
      [hyperVKeys, parallelsKeys, virtualBoxKeys, virtualPCKeys, vmwareKeys, xenKeys].flatten
        = pre ++ k :: post ∧
      doesRegistryKeyExist reg k = some true ∧
      (∀ x ∈ pre, doesRegistryKeyExist reg x = some false) ∧
      (∀ catalog post2, catalog.flatten = pre ++ k :: post2 →
        checkRegistryOver reg catalog = some (true, k)) := by
  obtain ⟨pre, post, e, hp, hf⟩ :=
    (scanKeys_found_iff reg _ k).mp ((checkRegistryOver_found_iff reg allKeys k).mp h)
  refine ⟨pre, post, e, hf, hp, ?_⟩
  intro catalog post2 e2
  exact (checkRegistryOver_found_iff reg catalog k).mpr
    ((scanKeys_found_iff reg _ k).mpr ⟨pre, post2, e2, hp, hf⟩)

theorem checkRegistry_first_match_witness :
    checkRegistry hyperVRegistry = some (true, "HKLM\\SOFTWARE\\Microsoft\\Hyper-V".toList) ∧
    ∃ pre post,
      [hyperVKeys, parallelsKeys, virtualBoxKeys, virtualPCKeys, vmwareKeys, xenKeys].flatten
        = pre ++ "HKLM\\SOFTWARE\\Microsoft\\Hyper-V".toList :: post ∧
      doesRegistryKeyExist hyperVRegistry "HKLM\\SOFTWARE\\Microsoft\\Hyper-V".toList
        = some true ∧
      (∀ x ∈ pre, doesRegistryKeyExist hyperVRegistry x = some false) ∧
      (∀ catalog post2,
        catalog.flatten = pre ++ "HKLM\\SOFTWARE\\Microsoft\\Hyper-V".toList :: post2 →
        checkRegistryOver hyperVRegistry catalog
          = some (true, "HKLM\\SOFTWARE\\Microsoft\\Hyper-V".toList)) :=
  ⟨by decide, checkRegistry_first_match hyperVRegistry _ (by decide)⟩

/-- C5 (the code departs from it).  The claim: a signature
`<ROOT>\<s1>\...\<sn>\<prefix>*` parses to root `<ROOT>`, sub-path
`<s1>\...\<sn>` and prefix `<prefix>`.  The code: for every signature that ends
in `*` and holds no forward slash, `path.Split` returns an empty directory and
the whole signature as file, and the parse panics. -/
theorem parseKey_wildcard_panics (body : GoString) (h : '/' ∉ body) :
    pathSplit (body ++ ['*']) = ([], body ++ ['*']) ∧ parseKey (body ++ ['*']) = none := by
  refine ⟨pathSplit_no_slash _ ?_, parseKey_star_no_slash body h⟩
  simp only [List.mem_append, List.mem_singleton, not_or]
  exact ⟨h, by decide⟩

theorem parseKey_wildcard_panics_witness :
    '/' ∉ "HKLM\\SYSTEM\\CurrentControlSet\\Enum\\PCI\\VEN_1AB8".toList ∧
    pathSplit ("HKLM\\SYSTEM\\CurrentControlSet\\Enum\\PCI\\VEN_1AB8".toList ++ ['*'])
      = ([], "HKLM\\SYSTEM\\CurrentControlSet\\Enum\\PCI\\VEN_1AB8".toList ++ ['*']) ∧
    parseKey ("HKLM\\SYSTEM\\CurrentControlSet\\Enum\\PCI\\VEN_1AB8".toList ++ ['*']) = none :=
  ⟨by decide, parseKey_wildcard_panics _ (by decide)⟩

/-- C6.  For a signature `<ROOT>\<subpath>` that does not end in `*`, with
`<ROOT>` one of `HKLM`, `HKCR`, `HKCU`, `HKU`, `HKCC`, the parse yields that
root token, the text after the first backslash as sub-path and no prefix, and
`doesRegistryKeyExist` returns whether that sub-path opens under the root the
token denotes. -/
theorem doesRegistryKeyExist_plain (reg : Registry) (root subpath : GoString)
    (keyType : RegistryKey)
    (hroot : (root, keyType) ∈
      [("HKLM".toList, RegistryKey.LOCAL_MACHINE), ("HKCR".toList, RegistryKey.CLASSES_ROOT),
       ("HKCU".toList, RegistryKey.CURRENT_USER), ("HKU".toList, RegistryKey.USERS),
       ("HKCC".toList, RegistryKey.CURRENT_CONFIG)])
    (hstar : (root ++ '\\' :: subpath).getLast? ≠ some '*') :
    parseKey (root ++ '\\' :: subpath) = some ⟨root, subpath, []⟩ ∧
    doesRegistryKeyExist reg (root ++ '\\' :: subpath) = some (reg.OpenKey keyType subpath) := by
  have hk : PathSeparator ∉ root ∧ keyTypeOf root = some keyType := by
    simp only [List.mem_cons, Prod.mk.injEq, List.mem_singleton, List.not_mem_nil,
      or_false] at hroot
    rcases hroot with ⟨rfl, rfl⟩ | ⟨rfl, rfl⟩ | ⟨rfl, rfl⟩ | ⟨rfl, rfl⟩ | ⟨rfl, rfl⟩ <;>
      exact ⟨by decide, by decide⟩
  have hparse : parseKey (root ++ '\\' :: subpath) = some ⟨root, subpath, []⟩ :=
    parseKey_plain root subpath hk.1 hstar
  refine ⟨hparse, ?_⟩
  rw [doesRegistryKeyExist_of_parse reg _ _ hparse]
  simp only [lookupParsed, hk.2]
  cases reg.OpenKey keyType subpath <;> simp

theorem doesRegistryKeyExist_plain_witness :
    ("HKCU".toList ++ '\\' :: "SOFTWARE\\VMware, Inc.\\VMware Tools".toList).getLast? ≠ some '*' ∧
    parseKey ("HKCU".toList ++ '\\' :: "SOFTWARE\\VMware, Inc.\\VMware Tools".toList)
      = some ⟨"HKCU".toList, "SOFTWARE\\VMware, Inc.\\VMware Tools".toList, []⟩ ∧
    doesRegistryKeyExist childlessRegistry
        ("HKCU".toList ++ '\\' :: "SOFTWARE\\VMware, Inc.\\VMware Tools".toList)
      = some (childlessRegistry.OpenKey RegistryKey.CURRENT_USER
          "SOFTWARE\\VMware, Inc.\\VMware Tools".toList) :=
  ⟨by decide, doesRegistryKeyExist_plain childlessRegistry _ _ RegistryKey.CURRENT_USER
    (by decide) (by decide)⟩

theorem deviceNames_length (n i : Nat) : (deviceNames n i).length = n := by
  induction n generalizing i with
  | zero => rfl
  | succ n ih => simp [deviceNames, ih]

/-- On a signature that parses, once the parent key opens and its sub-key
names enumerate without error, the answer is true exactly when the recorded
prefix is empty or some enumerated name starts with it. -/
theorem doesRegistryKeyExist_enumerated (reg : Registry) (key : GoString) (p : ParsedKey)
    (keyType : RegistryKey) (names : List GoString)
    (hparse : parseKey key = some p)
    (hroot : keyTypeOf p.keyTypeStr = some keyType)
    (hopen : reg.OpenKey keyType p.keyPath = true)
    (henum : reg.ReadSubKeyNames keyType p.keyPath = some names) :
    doesRegistryKeyExist reg key = some true ↔
      (p.subkeyPrefix = [] ∨ ∃ n ∈ names, p.subkeyPrefix <+: n) := by
  rw [doesRegistryKeyExist_of_parse reg key p hparse]
  simp only [lookupParsed, hroot, hopen, henum, Option.some.injEq]
  by_cases hp : p.subkeyPrefix = []
  · simp [hp]
  · simp [hp, stringsHasPrefix]

/-- With an empty recorded prefix the sub-key names are never asked for: the
signature `HKLM\SOFTWARE/*` is reported found as soon as `SOFTWARE/` opens,
whatever the key holds. -/
theorem doesRegistryKeyExist_empty_recorded (reg : Registry)
    (hopen : reg.OpenKey RegistryKey.LOCAL_MACHINE "SOFTWARE/".toList = true) :
    doesRegistryKeyExist reg "HKLM\\SOFTWARE/*".toList = some true := by
  have hparse : parseKey "HKLM\\SOFTWARE/*".toList
      = some ⟨"HKLM".toList, "SOFTWARE/".toList, []⟩ := by decide
  have hroot : keyTypeOf "HKLM".toList = some RegistryKey.LOCAL_MACHINE := by decide
  rw [doesRegistryKeyExist_of_parse reg _ _ hparse]
  simp only [lookupParsed, hroot, hopen]
  rfl

/-- An error of the enumeration, `io.EOF` included, makes a signature with a
non-empty recorded prefix absent, whatever sub-keys the parent key holds. -/
theorem doesRegistryKeyExist_enumeration_error (reg : Registry) (key : GoString)
    (p : ParsedKey) (keyType : RegistryKey)
    (hparse : parseKey key = some p)
    (hroot : keyTypeOf p.keyTypeStr = some keyType)
    (hne : p.subkeyPrefix ≠ [])
    (henum : reg.ReadSubKeyNames keyType p.keyPath = none) :
    doesRegistryKeyExist reg key = some false := by
  rw [doesRegistryKeyExist_of_parse reg key p hparse]
  simp only [lookupParsed, hroot, henum]
  cases reg.OpenKey keyType p.keyPath <;> simp [hne]

/-- C7 (the code departs from it).  The claim: for a signature that ends in
`*`, on a registry where the parent key opens and its sub-key names enumerate,
`doesRegistryKeyExist` returns true exactly when some enumerated name starts
with the text of the final segment before the `*`.  The code: for every
signature that ends in `*` and holds no forward slash, the eight wildcard
signatures of the catalog among them, and for every registry state, whatever
the parent key holds, `doesRegistryKeyExist` returns nothing: it panics before
it opens any key. -/
theorem doesRegistryKeyExist_wildcard_panics (reg : Registry) (body : GoString)
    (h : '/' ∉ body) :
    doesRegistryKeyExist reg (body ++ ['*']) = none :=
  doesRegistryKeyExist_of_panic reg _ (parseKey_star_no_slash body h)

theorem doesRegistryKeyExist_wildcard_panics_witness :
    '/' ∉ "HKLM\\SYSTEM\\CurrentControlSet\\Enum\\PCI\\VEN_1AB8".toList ∧
    "HKLM\\SYSTEM\\CurrentControlSet\\Enum\\PCI\\VEN_1AB8".toList ++ ['*'] ∈ allKeys.flatten ∧
    crowdedPciRegistry.OpenKey RegistryKey.LOCAL_MACHINE
      "SYSTEM\\CurrentControlSet\\Enum\\PCI".toList = true ∧
    crowdedPciRegistry.ReadSubKeyNames RegistryKey.LOCAL_MACHINE
      "SYSTEM\\CurrentControlSet\\Enum\\PCI".toList = some crowdedPciNames ∧
    crowdedPciNames.length = 65535 ∧
    (∃ n ∈ crowdedPciNames, "VEN_1AB8".toList <+: n) ∧
    doesRegistryKeyExist crowdedPciRegistry
      ("HKLM\\SYSTEM\\CurrentControlSet\\Enum\\PCI\\VEN_1AB8".toList ++ ['*']) = none :=
  ⟨by decide, by decide, by decide,
    by simp [crowdedPciRegistry],
    by rw [crowdedPciNames, List.length_cons, deviceNames_length],
    ⟨"VEN_1AB8&DEV_0001".toList, List.mem_cons_self _ _, by decide⟩,
    doesRegistryKeyExist_wildcard_panics crowdedPciRegistry _ (by decide)⟩

/-- A signature that does not end in `*` and whose text before the first
backslash is not a root token is reported absent on every registry. -/
theorem doesRegistryKeyExist_unknown_root (reg : Registry) (tok sub : GoString)
    (htok : PathSeparator ∉ tok) (hk : keyTypeOf tok = none)
    (hstar : (tok ++ PathSeparator :: sub).getLast? ≠ some '*') :
    doesRegistryKeyExist reg (tok ++ PathSeparator :: sub) = some false := by
  rw [doesRegistryKeyExist_of_parse reg _ _ (parseKey_plain tok sub htok hstar)]
  simp only [lookupParsed, hk]

/-- C8 (the code departs from it).  The claim: a signature that holds a
backslash and whose root token is not recognised is reported absent without
failing, and the scan goes on.  The code: the signature `BAD\foo*` makes
`doesRegistryKeyExist` panic on every registry, and a scan that meets it does
not report the genuine match `HKLM\SOFTWARE\Microsoft\Hyper-V` that follows. -/
theorem doesRegistryKeyExist_unknown_root_wildcard_panics :
    '\\' ∈ "BAD\\foo*".toList ∧
    keyTypeOf "BAD".toList = none ∧
    (∀ reg : Registry, doesRegistryKeyExist reg "BAD\\foo*".toList = none) ∧
    doesRegistryKeyExist hyperVRegistry "HKLM\\SOFTWARE\\Microsoft\\Hyper-V".toList = some true ∧
    checkRegistryOver hyperVRegistry
      [["BAD\\foo*".toList, "HKLM\\SOFTWARE\\Microsoft\\Hyper-V".toList]] = none := by
  refine ⟨by decide, by decide, ?_, by decide, by decide⟩
  intro reg
  exact doesRegistryKeyExist_of_panic reg _ (by decide)

/-- When no signature of a list panics, the scan of the list finds something
exactly when some signature of the list is reported found. -/
theorem scanKeys_total (reg : Registry) (l : List GoString)
    (h : ∀ k ∈ l, ∃ b, doesRegistryKeyExist reg k = some b) :
    ∃ r, scanKeys reg l = some r ∧
      (r.isSome = l.any (fun k => doesRegistryKeyExist reg k == some true)) := by
  induction l with
  | nil => exact ⟨none, rfl, rfl⟩
  | cons a l ih =>
    obtain ⟨b, hb⟩ := h a (List.mem_cons_self _ _)
    obtain ⟨r, hr, hr2⟩ := ih (fun k hk => h k (List.mem_cons_of_mem _ hk))
    cases b with
    | true => exact ⟨some a, by simp [scanKeys, hb], by simp [hb]⟩
    | false => exact ⟨r, by simp [scanKeys, hb, hr], by simp [hb, hr2]⟩

/-- C9 (the code departs from it).  The claim: the boolean of `checkRegistry` is
the OR of the per-signature outcomes and does not change when the groups are
permuted.  The code: on the registry whose only key is
`HKLM\SOFTWARE\Microsoft\Hyper-V` the catalog in declared order gives true,
while the same groups with Parallels moved in front of Hyper-V give no boolean
at all: the scan panics. -/
theorem checkRegistryOver_order_dependent :
    List.Perm [parallelsKeys, hyperVKeys, virtualBoxKeys, virtualPCKeys, vmwareKeys, xenKeys]
      allKeys ∧
    checkRegistryOver hyperVRegistry allKeys
      = some (true, "HKLM\\SOFTWARE\\Microsoft\\Hyper-V".toList) ∧
    checkRegistryOver hyperVRegistry
      [parallelsKeys, hyperVKeys, virtualBoxKeys, virtualPCKeys, vmwareKeys, xenKeys] = none := by
  refine ⟨List.Perm.swap _ _ _, by decide, by decide⟩

/-- C10.  Whenever `IsRunningInVirtualMachine` returns true, the string it
returns with it is non-empty and contains a catalog signature that
`doesRegistryKeyExist` reported found. -/
theorem IsRunningInVirtualMachine_reason_nonempty (reg : Registry) (s : GoString)
    (h : IsRunningInVirtualMachine reg = some (true, s)) :
    s ≠ [] ∧ ∃ k ∈ allKeys.flatten, doesRegistryKeyExist reg k = some true ∧ k <:+: s := by
  obtain ⟨k, hk, rfl⟩ := (IsRunningInVirtualMachine_found_iff reg s).mp h
  obtain ⟨pre, post, e, -, hf⟩ :=
    (scanKeys_found_iff reg _ k).mp ((checkRegistryOver_found_iff reg allKeys k).mp hk)
  refine ⟨?_, k, ?_, hf, ?_⟩
  · intro e0
    have hl := congrArg List.length e0
    simp [sprintfRegistryKey] at hl
  · rw [e]; simp
  · exact ⟨"Registry key (".toList, ")".toList, rfl⟩

theorem IsRunningInVirtualMachine_reason_nonempty_witness :
    IsRunningInVirtualMachine hyperVRegistry
      = some (true, "Registry key (HKLM\\SOFTWARE\\Microsoft\\Hyper-V)".toList) ∧
    "Registry key (HKLM\\SOFTWARE\\Microsoft\\Hyper-V)".toList ≠ [] ∧
    ∃ k ∈ allKeys.flatten, doesRegistryKeyExist hyperVRegistry k = some true ∧
      k <:+: "Registry key (HKLM\\SOFTWARE\\Microsoft\\Hyper-V)".toList :=
  ⟨by decide, IsRunningInVirtualMachine_reason_nonempty hyperVRegistry _ (by decide)⟩

end VMDetect
